import Mathlib

/-!
Shallow embedding of the in-scope logic of `src/app.py` (AI Market Advisor):
the sentiment-label thresholding (`analyze_sentiment`, lines 102-106), the
keyword-based sector mapper (`SECTOR_KEYWORDS` lines 25-32 and
`map_headline_to_sector` lines 108-113), the per-symbol performance analyzer
(`analyze_stock_performance`, lines 115-124) with its external price fetch
abstracted as an input, and the recommendation logic of the main loop
(lines 190-220).  Sentiment polarity itself comes from the external TextBlob
library, so it enters the model as a rational-number parameter; prices come
from the external yfinance library, so the fetch outcome is likewise a
parameter.  Python floats are modelled as rationals.
-/

/-- The per-symbol statistic built at src/app.py line 122:
`{'symbol': symbol, 'avg_return': avg_return}`. -/
structure TickerStats where
  symbol : String
  avg_return : ℚ
deriving DecidableEq, Repr

/-- The label expression of `analyze_sentiment` (src/app.py line 105):
`'POSITIVE' if polarity > 0.1 else 'NEGATIVE' if polarity < -0.1 else 'NEUTRAL'`;
the float literal 0.1 is the rational `mkRat 1 10`. -/
def sentimentLabel (polarity : ℚ) : String :=
  if polarity > mkRat 1 10 then "POSITIVE"
  else if polarity < -(mkRat 1 10) then "NEGATIVE"
  else "NEUTRAL"

/-- `analyze_sentiment` (src/app.py lines 102-106) returns the pair
`(label, polarity)`; the polarity is produced by the external TextBlob
library, so it is a parameter here. -/
def analyze_sentiment (polarity : ℚ) : String × ℚ :=
  (sentimentLabel polarity, polarity)

/-- Character-wise lower-casing, modelling Python `str.lower()` at
src/app.py line 109 (all catalog keywords are ASCII). -/
def lowerStr (s : String) : List Char :=
  s.data.map Char.toLower

/-- Python substring containment `keyword in headline_lower`
(src/app.py line 111). -/
def kwIn (kw : String) (hl : List Char) : Bool :=
  decide (kw.data <:+: hl)

/-- `any(keyword in headline_lower for keyword in keywords)`
(src/app.py line 111). -/
def sectorMatches (hl : List Char) (keywords : List String) : Bool :=
  keywords.any (fun kw => kwIn kw hl)

/-- The `SECTOR_KEYWORDS` dict of src/app.py lines 25-32, in its declaration
order (Python dicts preserve insertion order). -/
def SECTOR_KEYWORDS : List (String × List String) :=
  [("AUTOMOBILE & AUTO COMPONENTS",
      ["auto", "maruti", "mahindra", "tata motors", "hero", "bajaj", "ev"]),
   ("PHARMA & HEALTHCARE",
      ["pharma", "health", "cipla", "sun pharma", "lupin", "dr reddy", "healthcare"]),
   ("IT - SOFTWARE",
      ["it", "tech", "tcs", "infosys", "wipro", "hcl", "software"]),
   ("FINANCIAL SERVICES",
      ["bank", "hdfc", "icici", "sbi", "axis", "finance", "rbi", "nbfc"]),
   ("OIL GAS & FUELS",
      ["oil", "gas", "ongc", "reliance", "bpcl", "crude", "energy"]),
   ("METALS & MINING",
      ["metal", "steel", "tata steel", "jsw", "hindalco", "coal", "mining"])]

/-- The `for sector, keywords in ...` loop of src/app.py lines 110-113,
over an arbitrary catalog. -/
def mapSectorAux (hl : List Char) : List (String × List String) → Option String
  | [] => none
  | (sector, keywords) :: rest =>
    if sectorMatches hl keywords then some sector else mapSectorAux hl rest

/-- `map_headline_to_sector` (src/app.py lines 108-113). -/
def map_headline_to_sector (headline : String) : Option String :=
  mapSectorAux (lowerStr headline) SECTOR_KEYWORDS

/-- Outcome of the external `yf.download` call at src/app.py line 118:
either an exception (caught at line 123) or a list of daily closes. -/
inductive FetchResult where
  | failure : FetchResult
  | prices : List ℚ → FetchResult
deriving DecidableEq

/-- Mean of day-over-day fractional price changes (pandas `pct_change`
followed by `mean`, which skips the leading NaN), src/app.py lines 120-121.
Pandas NaN arithmetic on degenerate inputs (a single row, a zero close) is
not modelled; no claim below depends on the numeric value. -/
def avgReturn (closes : List ℚ) : ℚ :=
  let changes := (closes.zip closes.tail).map (fun p => (p.2 - p.1) / p.1)
  changes.sum / changes.length

/-- `analyze_stock_performance` (src/app.py lines 115-124): `none` models the
Python `None` returned on an empty series (line 119) or on any exception
(lines 123-124); its try/except makes the function total, so the model's
return type is `Option` rather than an error monad. -/
def analyze_stock_performance (symbol : String) (fetch : FetchResult) : Option TickerStats :=
  match fetch with
  | .failure => none
  | .prices closes =>
    if closes.isEmpty then none
    else some { symbol := symbol, avg_return := avgReturn closes }

/-- `valid_stocks = [s for s in all_stock_analysis if s is not None]`
(src/app.py line 212). -/
def validStocks (all_stock_analysis : List (Option TickerStats)) : List TickerStats :=
  all_stock_analysis.filterMap id

/-- Descending comparison used by the POSITIVE branch's
`sort(key=lambda x: x['avg_return'], reverse=True)` (src/app.py line 217). -/
def descBy (a b : TickerStats) : Prop :=
  b.avg_return ≤ a.avg_return

/-- Ascending comparison used by the NEGATIVE branch's
`sort(key=lambda x: x['avg_return'])` (src/app.py line 220). -/
def ascBy (a b : TickerStats) : Prop :=
  a.avg_return ≤ b.avg_return

instance : DecidableRel descBy :=
  fun a b => inferInstanceAs (Decidable (b.avg_return ≤ a.avg_return))

instance : DecidableRel ascBy :=
  fun a b => inferInstanceAs (Decidable (a.avg_return ≤ b.avg_return))

instance : IsTotal TickerStats descBy :=
  ⟨fun a b => le_total b.avg_return a.avg_return⟩

instance : IsTrans TickerStats descBy :=
  ⟨fun _ _ _ h1 h2 => le_trans h2 h1⟩

instance : IsTotal TickerStats ascBy :=
  ⟨fun a b => le_total a.avg_return b.avg_return⟩

instance : IsTrans TickerStats ascBy :=
  ⟨fun _ _ _ h1 h2 => le_trans h1 h2⟩

/-- The recommendation logic of src/app.py lines 214-220: filter by the
±0.001 threshold (`mkRat 1 1000`), then sort by `avg_return` (descending when the sentiment is
`'POSITIVE'`, ascending otherwise — the Python code's `else` branch covers
every non-POSITIVE label).  Python's `list.sort` is a stable sort, and a
stable sort's output is uniquely determined by the comparison, so the stable
`List.insertionSort` models it exactly. -/
def recommend (sentiment : String) (valid_stocks : List TickerStats) : List TickerStats :=
  if sentiment = "POSITIVE" then
    List.insertionSort descBy
      (valid_stocks.filter (fun s => decide (s.avg_return > mkRat 1 1000)))
  else
    List.insertionSort ascBy
      (valid_stocks.filter (fun s => decide (s.avg_return < -(mkRat 1 1000))))

/-- One iteration of the main loop's analysis of a headline (src/app.py
lines 190-220), up to the computed recommendations.  The external
collaborators enter as parameters: `polarity` is what TextBlob returns for
the headline, `stocksMap` is `sector_stocks_map.get(·, [])` (line 205), and
`perf` is the (cached) `analyze_stock_performance` (line 211).  Returns
`none` when the branch at line 194, 197 or 206-208 skips the headline,
otherwise the mapped sector together with the recommendation list. -/
def processHeadline (stocksMap : String → List String) (perf : String → Option TickerStats)
    (headline : String) (polarity : ℚ) : Option (String × List TickerStats) :=
  let sentiment := sentimentLabel polarity
  if sentiment ≠ "NEUTRAL" then
    match map_headline_to_sector headline with
    | some mapped_sector =>
      let stocks_in_sector := stocksMap mapped_sector
      if stocks_in_sector.isEmpty then none
      else
        let all_stock_analysis := stocks_in_sector.map perf
        some (mapped_sector, recommend sentiment (validStocks all_stock_analysis))
    | none => none
  else none

/-- Whitespace word-splitting of a character list; used only to express that
a keyword match need not be a standalone-word match. -/
def splitWords : List Char → List (List Char)
  | [] => [[]]
  | c :: rest =>
    match splitWords rest with
    | [] => [[c]]
    | w :: ws => if c = ' ' then [] :: w :: ws else (c :: w) :: ws

/-- The candidate set of the spec's §8 worked example: avg_return values
[0.0005, 0.0015, -0.002, 0.003]. -/
def exampleCandidates : List TickerStats :=
  [⟨"A", mkRat 5 10000⟩, ⟨"B", mkRat 15 10000⟩, ⟨"C", mkRat (-2) 1000⟩, ⟨"D", mkRat 3 1000⟩]

example : (recommend "POSITIVE" exampleCandidates).map TickerStats.avg_return
    = [mkRat 3 1000, mkRat 15 10000] := by decide

example : (recommend "NEGATIVE" exampleCandidates).map TickerStats.avg_return
    = [mkRat (-2) 1000] := by decide

example : map_headline_to_sector "Auto loans from top bank"
    = some "AUTOMOBILE & AUTO COMPONENTS" := by decide

example : map_headline_to_sector "United profits surge" = some "IT - SOFTWARE" := by decide

/-- Shared helper: the POSITIVE branch of `recommend` is a permutation of the
threshold-filtered candidates. -/
theorem recommend_positive_perm (cs : List TickerStats) :
    (recommend "POSITIVE" cs).Perm
      (cs.filter (fun s => decide (s.avg_return > mkRat 1 1000))) := by
  simpa [recommend] using List.perm_insertionSort descBy
    (cs.filter (fun s => decide (s.avg_return > mkRat 1 1000)))

/-- Shared helper: for a non-POSITIVE label, `recommend` is a permutation of
the negative-threshold-filtered candidates. -/
theorem recommend_negative_perm (cs : List TickerStats) :
    (recommend "NEGATIVE" cs).Perm
      (cs.filter (fun s => decide (s.avg_return < -(mkRat 1 1000)))) := by
  simpa [recommend] using List.perm_insertionSort ascBy
    (cs.filter (fun s => decide (s.avg_return < -(mkRat 1 1000))))

/-- C3: for every polarity score s, the sentiment label is POSITIVE iff
s > 0.1, NEGATIVE iff s < -0.1, and NEUTRAL otherwise; the boundary scores
0.1 and -0.1 both map to NEUTRAL. -/
theorem sentimentLabel_thresholds (s : ℚ) :
    (sentimentLabel s = "POSITIVE" ↔ mkRat 1 10 < s) ∧
    (sentimentLabel s = "NEGATIVE" ↔ s < -(mkRat 1 10)) ∧
    (sentimentLabel s = "NEUTRAL" ↔ -(mkRat 1 10) ≤ s ∧ s ≤ mkRat 1 10) ∧
    sentimentLabel (mkRat 1 10) = "NEUTRAL" ∧
    sentimentLabel (-(mkRat 1 10)) = "NEUTRAL" := by
  refine ⟨?_, ?_, ?_, by decide, by decide⟩ <;>
    · have hc : -(mkRat 1 10) < mkRat 1 10 := by decide
      unfold sentimentLabel
      split_ifs with h1 h2 <;> simp_all <;> linarith

/-- C1: for every candidate set, the POSITIVE recommendation list contains
exactly the candidates with avg_return > 0.001 (counted with multiplicity),
is ordered by avg_return descending, and on the spec's worked example
[0.0005, 0.0015, -0.002, 0.003] yields [0.003, 0.0015] in that order. -/
theorem recommend_positive_spec (cs : List TickerStats) :
    (∀ t : TickerStats, (recommend "POSITIVE" cs).count t =
      if mkRat 1 1000 < t.avg_return then cs.count t else 0) ∧
    List.Pairwise (fun a b : TickerStats => b.avg_return ≤ a.avg_return)
      (recommend "POSITIVE" cs) ∧
    (recommend "POSITIVE" exampleCandidates).map TickerStats.avg_return
      = [mkRat 3 1000, mkRat 15 10000] := by
  refine ⟨?_, ?_, by decide⟩
  · intro t
    rw [(recommend_positive_perm cs).count_eq]
    by_cases hp : mkRat 1 1000 < t.avg_return
    · rw [if_pos hp, List.count_filter]
      simpa using hp
    · rw [if_neg hp, List.count_eq_zero]
      intro hmem
      exact hp (by simpa using (List.of_mem_filter hmem))
  · have h := List.sorted_insertionSort descBy
      (cs.filter (fun s => decide (s.avg_return > mkRat 1 1000)))
    simpa [recommend, List.Sorted, descBy] using h

/-- C2: for every candidate set, the NEGATIVE recommendation list contains
exactly the candidates with avg_return < -0.001 (counted with multiplicity),
is ordered by avg_return ascending (most negative first), and on the spec's
worked example yields [-0.002]. -/
theorem recommend_negative_spec (cs : List TickerStats) :
    (∀ t : TickerStats, (recommend "NEGATIVE" cs).count t =
      if t.avg_return < -(mkRat 1 1000) then cs.count t else 0) ∧
    List.Pairwise (fun a b : TickerStats => a.avg_return ≤ b.avg_return)
      (recommend "NEGATIVE" cs) ∧
    (recommend "NEGATIVE" exampleCandidates).map TickerStats.avg_return
      = [mkRat (-2) 1000] := by
  refine ⟨?_, ?_, by decide⟩
  · intro t
    rw [(recommend_negative_perm cs).count_eq]
    by_cases hp : t.avg_return < -(mkRat 1 1000)
    · rw [if_pos hp, List.count_filter]
      simpa using hp
    · rw [if_neg hp, List.count_eq_zero]
      intro hmem
      exact hp (by simpa using (List.of_mem_filter hmem))
  · have h := List.sorted_insertionSort ascBy
      (cs.filter (fun s => decide (s.avg_return < -(mkRat 1 1000))))
    simpa [recommend, List.Sorted, ascBy] using h

/-- Shared helper: the sector loop returns `none` exactly when no catalog
entry matches the lower-cased headline. -/
theorem mapSectorAux_eq_none_iff (hl : List Char) :
    ∀ cat : List (String × List String),
      mapSectorAux hl cat = none ↔ ∀ p ∈ cat, sectorMatches hl p.2 = false
  | [] => by simp [mapSectorAux]
  | (s, k) :: rest => by
    by_cases hm : sectorMatches hl k = true
    · simp [mapSectorAux, hm]
    · simp [mapSectorAux, hm, mapSectorAux_eq_none_iff hl rest]

/-- Shared helper: the sector loop returns `some sec` exactly when the
catalog splits as `pre ++ (sec, kws) :: post` with `kws` matching and no
entry of `pre` matching (first match in declaration order wins). -/
theorem mapSectorAux_eq_some_iff (hl : List Char) :
    ∀ (cat : List (String × List String)) (sec : String),
      mapSectorAux hl cat = some sec ↔
        ∃ pre kws post, cat = pre ++ (sec, kws) :: post ∧
          sectorMatches hl kws = true ∧
          ∀ p ∈ pre, sectorMatches hl p.2 = false
  | [], sec => by simp [mapSectorAux]
  | (s, k) :: rest, sec => by
    by_cases hm : sectorMatches hl k = true
    · rw [show mapSectorAux hl ((s, k) :: rest) = some s from by
        simp [mapSectorAux, hm]]
      simp only [Option.some_inj]
      constructor
      · rintro rfl
        exact ⟨[], k, rest, rfl, hm, by simp⟩
      · rintro ⟨pre, kws, post, hcat, hkw, hpre⟩
        cases pre with
        | nil =>
          simp only [List.nil_append, List.cons.injEq, Prod.mk.injEq] at hcat
          exact hcat.1.1
        | cons p ps =>
          simp only [List.cons_append, List.cons.injEq] at hcat
          have hp := hpre p (List.mem_cons_self p ps)
          rw [← hcat.1] at hp
          simp [hp] at hm
    · rw [show mapSectorAux hl ((s, k) :: rest) = mapSectorAux hl rest from by
        simp [mapSectorAux, hm]]
      rw [mapSectorAux_eq_some_iff hl rest sec]
      constructor
      · rintro ⟨pre, kws, post, hcat, hkw, hpre⟩
        refine ⟨(s, k) :: pre, kws, post, by simp [hcat], hkw, ?_⟩
        intro p hp
        rcases List.mem_cons.mp hp with h | h
        · subst h
          simpa using hm
        · exact hpre p h
      · rintro ⟨pre, kws, post, hcat, hkw, hpre⟩
        cases pre with
        | nil =>
          simp only [List.nil_append, List.cons.injEq, Prod.mk.injEq] at hcat
          rw [← hcat.1.2] at hkw
          exact absurd hkw hm
        | cons p ps =>
          simp only [List.cons_append, List.cons.injEq] at hcat
          exact ⟨ps, kws, post, hcat.2, hkw,
            fun q hq => hpre q (List.mem_cons_of_mem p hq)⟩

/-- C4: the sector mapper lower-cases the headline and scans the catalog in
declaration order: it returns `some sec` exactly when the catalog splits as
`pre ++ (sec, kws) :: post` with a keyword of `kws` occurring in the
lower-cased headline and no earlier entry matching, and `none` exactly when
no sector matches; consequently the headline "Auto loans from top bank",
which matches both AUTOMOBILE (keyword "auto") and FINANCIAL SERVICES
(keyword "bank"), gets the earlier AUTOMOBILE sector. -/
theorem map_headline_first_match (headline : String) (sec : String) :
    (map_headline_to_sector headline = some sec ↔
      ∃ pre kws post, SECTOR_KEYWORDS = pre ++ (sec, kws) :: post ∧
        sectorMatches (lowerStr headline) kws = true ∧
        ∀ p ∈ pre, sectorMatches (lowerStr headline) p.2 = false) ∧
    (map_headline_to_sector headline = none ↔
      ∀ p ∈ SECTOR_KEYWORDS, sectorMatches (lowerStr headline) p.2 = false) ∧
    sectorMatches (lowerStr "Auto loans from top bank")
      ["auto", "maruti", "mahindra", "tata motors", "hero", "bajaj", "ev"] = true ∧
    sectorMatches (lowerStr "Auto loans from top bank")
      ["bank", "hdfc", "icici", "sbi", "axis", "finance", "rbi", "nbfc"] = true ∧
    map_headline_to_sector "Auto loans from top bank"
      = some "AUTOMOBILE & AUTO COMPONENTS" :=
  ⟨mapSectorAux_eq_some_iff (lowerStr headline) SECTOR_KEYWORDS sec,
   mapSectorAux_eq_none_iff (lowerStr headline) SECTOR_KEYWORDS,
   by decide, by decide, by decide⟩

/-- C7: keyword matching is substring-based, not word-boundary-based: in the
headline "United profits surge" the IT - SOFTWARE keyword "it" occurs only
inside the longer word "united" (it is not a standalone word), yet the
mapper returns the IT - SOFTWARE sector. -/
theorem substring_match_false_positive :
    "it" ∈ (["it", "tech", "tcs", "infosys", "wipro", "hcl", "software"] : List String) ∧
    ("IT - SOFTWARE", ["it", "tech", "tcs", "infosys", "wipro", "hcl", "software"])
      ∈ SECTOR_KEYWORDS ∧
    kwIn "it" (lowerStr "United profits surge") = true ∧
    "it".data ∉ splitWords (lowerStr "United profits surge") ∧
    (∃ w ∈ splitWords (lowerStr "United profits surge"),
      "it".data <:+: w ∧ w ≠ "it".data) ∧
    map_headline_to_sector "United profits surge" = some "IT - SOFTWARE" := by
  refine ⟨by decide, by decide, by decide, by decide, ?_, by decide⟩
  exact ⟨"united".data, by decide, by decide, by decide⟩

/-- C5: the performance analyzer returns `none` exactly on a failed fetch or
an empty price series (its try/except makes it a total function, so no error
propagates upward), and the candidate set built at src/app.py lines 211-212
contains exactly the stocks whose analysis returned a value, so a symbol
whose analysis is unavailable is excluded before the recommendation stage. -/
theorem analyzer_unavailable_excluded :
    (∀ (symbol : String) (fetch : FetchResult),
      analyze_stock_performance symbol fetch = none ↔
        fetch = FetchResult.failure ∨ fetch = FetchResult.prices []) ∧
    (∀ (stocks : List String) (perf : String → Option TickerStats) (t : TickerStats),
      t ∈ validStocks (stocks.map perf) ↔ ∃ s ∈ stocks, perf s = some t) := by
  constructor
  · rintro symbol (_ | closes)
    · simp [analyze_stock_performance]
    · cases closes <;> simp [analyze_stock_performance]
  · intro stocks perf t
    simp [validStocks]

/-- C6: recommending over an empty candidate set yields the empty list for
every sentiment label, and when the analyzer returns `none` for every symbol
in the sector, the recommendation list is empty. -/
theorem recommend_empty_law (sentiment : String) (stocks : List String)
    (perf : String → Option TickerStats)
    (hall : ∀ s ∈ stocks, perf s = none) :
    recommend sentiment [] = [] ∧
    recommend sentiment (validStocks (stocks.map perf)) = [] := by
  have hempty : validStocks (stocks.map perf) = [] := by
    simpa [validStocks] using hall
  rw [hempty]
  constructor <;> · unfold recommend; split <;> rfl

/-- Witness for C6 at a concrete sector whose only symbol is unavailable. -/
theorem recommend_empty_law_witness :
    recommend "POSITIVE" [] = [] ∧
    recommend "POSITIVE" (validStocks (["RELIANCE"].map
      (fun _ => (none : Option TickerStats)))) = [] :=
  recommend_empty_law "POSITIVE" ["RELIANCE"] (fun _ => none) (fun _ _ => rfl)

/-- C8: the filter-then-sort is stable: two candidates with equal avg_return
that both pass the threshold appear in the recommendation output in their
input order, in the POSITIVE and the NEGATIVE branch alike. -/
theorem recommend_stable_ties (cs : List TickerStats) (a b : TickerStats)
    (heq : a.avg_return = b.avg_return) (hsub : List.Sublist [a, b] cs) :
    (mkRat 1 1000 < a.avg_return →
      List.Sublist [a, b] (recommend "POSITIVE" cs)) ∧
    (a.avg_return < -(mkRat 1 1000) →
      List.Sublist [a, b] (recommend "NEGATIVE" cs)) := by
  constructor
  · intro hthr
    have hb : mkRat 1 1000 < b.avg_return := heq ▸ hthr
    have hfil := List.Sublist.filter
      (fun s => decide (s.avg_return > mkRat 1 1000)) hsub
    rw [show [a, b].filter (fun s => decide (s.avg_return > mkRat 1 1000)) = [a, b] from by
      simp [List.filter_cons, hthr, hb]] at hfil
    unfold recommend
    rw [if_pos rfl]
    exact List.pair_sublist_insertionSort (le_of_eq heq.symm) hfil
  · intro hthr
    have hb : b.avg_return < -(mkRat 1 1000) := heq ▸ hthr
    have hfil := List.Sublist.filter
      (fun s => decide (s.avg_return < -(mkRat 1 1000))) hsub
    rw [show [a, b].filter (fun s => decide (s.avg_return < -(mkRat 1 1000))) = [a, b] from by
      simp [List.filter_cons, hthr, hb]] at hfil
    unfold recommend
    rw [if_neg (by decide)]
    exact List.pair_sublist_insertionSort (le_of_eq heq) hfil

/-- Witness for C8: two tied stocks keep their input order in the output. -/
theorem recommend_stable_ties_witness :
    List.Sublist [(⟨"A", mkRat 2 1000⟩ : TickerStats), ⟨"B", mkRat 2 1000⟩]
      (recommend "POSITIVE"
        [⟨"C", mkRat 5 10000⟩, ⟨"A", mkRat 2 1000⟩, ⟨"B", mkRat 2 1000⟩]) :=
  (recommend_stable_ties
    [⟨"C", mkRat 5 10000⟩, ⟨"A", mkRat 2 1000⟩, ⟨"B", mkRat 2 1000⟩]
    ⟨"A", mkRat 2 1000⟩ ⟨"B", mkRat 2 1000⟩ rfl (by decide)).1 (by decide)

/-- C9: a headline whose sentiment label is neither POSITIVE nor NEGATIVE
(i.e. NEUTRAL) is skipped by the main loop before any sector mapping,
per-symbol performance analysis or recommendation: `processHeadline`
produces nothing for it. -/
theorem neutral_skipped (stocksMap : String → List String)
    (perf : String → Option TickerStats) (headline : String) (polarity : ℚ)
    (h : sentimentLabel polarity ≠ "POSITIVE" ∧ sentimentLabel polarity ≠ "NEGATIVE") :
    processHeadline stocksMap perf headline polarity = none := by
  have hn : sentimentLabel polarity = "NEUTRAL" := by
    unfold sentimentLabel at *
    split_ifs at * <;> simp_all
  simp [processHeadline, hn]

/-- Witness for C9 at polarity 0 (a NEUTRAL score). -/
theorem neutral_skipped_witness :
    processHeadline (fun _ => ["TCS"]) (fun s => some ⟨s, 1⟩)
      "Infosys wins mega deal" 0 = none :=
  neutral_skipped (fun _ => ["TCS"]) (fun s => some ⟨s, 1⟩)
    "Infosys wins mega deal" 0 (by decide)

/-- C10: no stock is simultaneously a BUY and an AVOID recommendation: for
every candidate set, membership in the POSITIVE recommendations excludes
membership in the NEGATIVE recommendations computed from the same set. -/
theorem buy_avoid_disjoint (cs : List TickerStats) (t : TickerStats)
    (h : t ∈ recommend "POSITIVE" cs) : t ∉ recommend "NEGATIVE" cs := by
  intro hneg
  have h1 : mkRat 1 1000 < t.avg_return := by
    simpa using List.of_mem_filter ((recommend_positive_perm cs).mem_iff.mp h)
  have h2 : t.avg_return < -(mkRat 1 1000) := by
    simpa using List.of_mem_filter ((recommend_negative_perm cs).mem_iff.mp hneg)
  have hc : -(mkRat 1 1000) < mkRat 1 1000 := by decide
  linarith

/-- Witness for C10: the best performer of the worked example is a BUY and
hence not an AVOID. -/
theorem buy_avoid_disjoint_witness :
    (⟨"D", mkRat 3 1000⟩ : TickerStats) ∉ recommend "NEGATIVE" exampleCandidates :=
  buy_avoid_disjoint exampleCandidates ⟨"D", mkRat 3 1000⟩ (by decide)
